import Mathlib

/-!
Verification development for the git-auto-sync engine (`sync.py`).

The engine is embedded shallowly: every external effect (filesystem
probes, git subprocess calls, the process-liveness probe) is supplied by
an explicit environment value, and each Python function becomes a pure
Lean function from that environment to its result together with a trace
of the observable effects the claims speak about (git operations issued,
status records written, lock-file actions, log lines emitted by the
orchestrator, and whether a merge is left in progress).
-/

namespace GitAutoSync

/-- Outcome of running one bounded external command (`subprocess.run`
with a `timeout=` argument): normal completion with exit status 0,
normal completion with a nonzero exit status, or a raised
`TimeoutExpired`. -/
inductive ExecResult
  | ok
  | fail
  | timeout
deriving DecidableEq, Repr

/-- One git subprocess invocation, identified by the command issued.
`fetch`, `revListBehind`, `revListAhead`, `statusQuery` and `diffCached`
are read-only; `pull`, `mergeAbort`, `add`, `commit` and `push` mutate
the working copy or the remote. -/
inductive GitOp
  | fetch
  | revListBehind
  | pull
  | mergeAbort
  | statusQuery
  | add
  | diffCached
  | commit
  | revListAhead
  | push
deriving DecidableEq, Repr

/-- Whether a git operation mutates state (working copy, index, history
or remote), as opposed to a read-only query. -/
def GitOp.mutating : GitOp → Bool
  | .fetch => false
  | .revListBehind => false
  | .pull => true
  | .mergeAbort => true
  | .statusQuery => false
  | .add => true
  | .diffCached => false
  | .commit => true
  | .revListAhead => false
  | .push => true

/-- Pipeline stage an operation belongs to (pull = 0, commit = 1,
push = 2), used to state the stage-ordering invariant. -/
def GitOp.stage : GitOp → Nat
  | .fetch => 0
  | .revListBehind => 0
  | .pull => 0
  | .mergeAbort => 0
  | .statusQuery => 1
  | .add => 1
  | .diffCached => 1
  | .commit => 1
  | .revListAhead => 2
  | .push => 2

/-- Environment for syncing one repository: what the filesystem and the
git subprocesses would answer if invoked.  `pullTimeoutLeavesMerge`
records whether a `git pull` killed by the timeout leaves a merge in
progress in the working copy. -/
structure RepoWorld where
  pathExists : Bool
  gitDirExists : Bool
  fetchRes : ExecResult
  behind : Nat
  pullRes : ExecResult
  pullTimeoutLeavesMerge : Bool
  hasChanges : Bool
  addRes : ExecResult
  stagedCount : Nat
  commitRes : ExecResult
  ahead : Nat
  pushRes : ExecResult

/-- One repository entry of `config.json`.  Optional fields mirror the
`repo_config.get(key, default)` accesses in the source; the defaults are
applied at the use sites, as in the source. -/
structure RepoConfig where
  path : String
  strategy : Option String
  branch : Option String
  remote : Option String
  enabled : Option Bool

/-- The `global` section of the configuration; optional fields mirror
`quiet_hours.get("start", 22)` / `quiet_hours.get("end", 9)` /
`global_config.get("skipHours", [])`. -/
structure GlobalConfig where
  quietStart : Option Nat
  quietEnd : Option Nat
  skipHours : List Nat

/-- The loaded configuration. -/
structure Config where
  repos : List RepoConfig
  global : GlobalConfig

/-- One record written by `save_status` (the timestamp is not
modelled). -/
structure SyncStatus where
  repo : String
  status : String
  message : String
  branch : String
  remote : String
deriving DecidableEq, Repr

/-- Embedding of `should_skip_sync`: quiet-hours test first
(`current_hour >= start or current_hour < end`), then membership in
`skipHours`. -/
def shouldSkipSync (cfg : Config) (currentHour : Nat) : Bool :=
  let s := cfg.global.quietStart.getD 22
  let e := cfg.global.quietEnd.getD 9
  if currentHour ≥ s || currentHour < e then true
  else if cfg.global.skipHours.contains currentHour then true
  else false

/-- Result of `git_pull`: the returned boolean, the git operations
issued, and whether a merge is left in progress in the working copy when
the call returns. -/
structure PullResult where
  ok : Bool
  ops : List GitOp
  mergeInProgress : Bool
deriving DecidableEq, Repr

/-- Embedding of `git_pull`.  Fetch first (failure or timeout returns
`False`); then the behind count; zero behind returns `True` without
pulling; otherwise `git pull -X strategy` runs.  A nonzero pull exit
triggers `git merge --abort` before returning `False`; a
`TimeoutExpired` jumps to the handler, which returns `False` without
aborting. -/
def gitPull (w : RepoWorld) : PullResult :=
  match w.fetchRes with
  | .fail => { ok := false, ops := [.fetch], mergeInProgress := false }
  | .timeout => { ok := false, ops := [.fetch], mergeInProgress := false }
  | .ok =>
    if w.behind = 0 then
      { ok := true, ops := [.fetch, .revListBehind], mergeInProgress := false }
    else
      match w.pullRes with
      | .ok =>
        { ok := true, ops := [.fetch, .revListBehind, .pull], mergeInProgress := false }
      | .fail =>
        { ok := false, ops := [.fetch, .revListBehind, .pull, .mergeAbort],
          mergeInProgress := false }
      | .timeout =>
        { ok := false, ops := [.fetch, .revListBehind, .pull],
          mergeInProgress := w.pullTimeoutLeavesMerge }

/-- Result of `git_commit` or `git_push`: the returned boolean and the
git operations issued. -/
structure StageResult where
  ok : Bool
  ops : List GitOp
deriving DecidableEq, Repr

/-- Embedding of `git_commit`.  `has_changes` runs `git status
--porcelain`; with no changes the call is a no-op success.  Otherwise
`git add` runs (its exit status is ignored, but a timeout raises into
the handler), the staged count is read from `git diff --cached`; zero
staged is a no-op success, else `git commit` decides the result. -/
def gitCommit (w : RepoWorld) : StageResult :=
  if w.hasChanges = false then { ok := true, ops := [.statusQuery] }
  else
    match w.addRes with
    | .timeout => { ok := false, ops := [.statusQuery, .add] }
    | _ =>
      if w.stagedCount = 0 then
        { ok := true, ops := [.statusQuery, .add, .diffCached] }
      else
        match w.commitRes with
        | .ok => { ok := true, ops := [.statusQuery, .add, .diffCached, .commit] }
        | _ => { ok := false, ops := [.statusQuery, .add, .diffCached, .commit] }

/-- Embedding of `git_push`.  The ahead count is read first; zero ahead
is a no-op success, else `git push --force-if-includes` decides the
result (a timeout is a failure like any nonzero exit). -/
def gitPush (w : RepoWorld) : StageResult :=
  if w.ahead = 0 then { ok := true, ops := [.revListAhead] }
  else
    match w.pushRes with
    | .ok => { ok := true, ops := [.revListAhead, .push] }
    | _ => { ok := false, ops := [.revListAhead, .push] }

/-- Result of `sync_repo`: the returned boolean, the git operations
issued, the `save_status` records written, whether a merge is left in
progress, and the log lines emitted by `sync_repo` itself (diagnostics
logged inside the git helpers are not modelled). -/
structure SyncResult where
  ok : Bool
  ops : List GitOp
  statusWrites : List SyncStatus
  mergeInProgress : Bool
  logs : List String
deriving DecidableEq, Repr

/-- Embedding of `sync_repo`: validate path and `.git` directory (each
failure returns `False` at once), honour `dry_run` right after
validation, then pull, commit, push with a `save_status` write on the
first failing stage or on overall success. -/
def syncRepo (cfg : RepoConfig) (w : RepoWorld) (dryRun : Bool) : SyncResult :=
  let branch := cfg.branch.getD "main"
  let remote := cfg.remote.getD "origin"
  let strategy := cfg.strategy.getD "ours"
  if w.pathExists = false then
    { ok := false, ops := [], statusWrites := [], mergeInProgress := false,
      logs := ["Repository not found: " ++ cfg.path] }
  else if w.gitDirExists = false then
    { ok := false, ops := [], statusWrites := [], mergeInProgress := false,
      logs := ["Not a git repo: " ++ cfg.path] }
  else
    let hdr := ["=== Syncing: " ++ cfg.path ++ " ===",
      "Branch: " ++ branch ++ " | Remote: " ++ remote ++ " | Strategy: " ++ strategy]
    if dryRun then
      { ok := true, ops := [], statusWrites := [], mergeInProgress := false,
        logs := hdr ++ ["DRY RUN - no changes will be made"] }
    else
      let p := gitPull w
      if p.ok = false then
        { ok := false, ops := p.ops,
          statusWrites := [⟨cfg.path, "failed", "Pull failed", branch, remote⟩],
          mergeInProgress := p.mergeInProgress, logs := hdr }
      else
        let c := gitCommit w
        if c.ok = false then
          { ok := false, ops := p.ops ++ c.ops,
            statusWrites := [⟨cfg.path, "failed", "Commit failed", branch, remote⟩],
            mergeInProgress := p.mergeInProgress, logs := hdr }
        else
          let q := gitPush w
          if q.ok = false then
            { ok := false, ops := p.ops ++ c.ops ++ q.ops,
              statusWrites := [⟨cfg.path, "failed", "Push failed", branch, remote⟩],
              mergeInProgress := p.mergeInProgress, logs := hdr }
          else
            { ok := true, ops := p.ops ++ c.ops ++ q.ops,
              statusWrites := [⟨cfg.path, "success", "Sync completed", branch, remote⟩],
              mergeInProgress := p.mergeInProgress,
              logs := hdr ++ ["=== Sync completed: " ++ cfg.path ++ " ==="] }

/-- Content of the lock file when it exists: text that parses as an
integer process id (`int(...)` succeeds) or text whose parse raises
`ValueError`. -/
inductive LockContent
  | pid (p : Nat)
  | garbage
deriving DecidableEq, Repr

/-- Filesystem actions `acquire_lock` performs on the lock file. -/
inductive LockAction
  | unlink
  | write (p : Nat)
deriving DecidableEq, Repr

/-- Result of `acquire_lock`: the returned boolean, the lock file
content afterwards, and the actions performed on the lock file. -/
structure AcquireResult where
  ok : Bool
  record : Option LockContent
  actions : List LockAction
deriving DecidableEq, Repr

/-- Embedding of `acquire_lock`.  `alive p` models `os.kill(p, 0)`
succeeding.  An existing record naming a live process returns `False`
untouched; a record naming a dead process, or unparseable content
(`ValueError`), is unlinked; in every other case the current pid is
written and `True` returned. -/
def acquireLock (alive : Nat → Bool) (myPid : Nat) :
    Option LockContent → AcquireResult
  | some (.pid p) =>
    if alive p then { ok := false, record := some (.pid p), actions := [] }
    else
      { ok := true, record := some (.pid myPid),
        actions := [.unlink, .write myPid] }
  | some .garbage =>
    { ok := true, record := some (.pid myPid),
      actions := [.unlink, .write myPid] }
  | none =>
    { ok := true, record := some (.pid myPid), actions := [.write myPid] }

/-- Embedding of `release_lock`: unlink the lock file if it exists,
otherwise do nothing. -/
def releaseLock : Option LockContent → Option LockContent
  | some _ => none
  | none => none

/-- Invocation mode (`--mode head` or `--mode headless`). -/
inductive Mode
  | head
  | headless
deriving DecidableEq, Repr

/-- Parsed command-line arguments. -/
structure Args where
  mode : Mode
  dryRun : Bool
  force : Bool
  repoFilter : Option String

/-- Environment of one engine run: the arguments, the liveness probe and
own pid for the lock, the lock file content on entry, the loaded
configuration, the per-repository git environment keyed by path, the
current hour, and whether an unexpected exception is raised inside the
`try` body before any repository is processed. -/
structure Env where
  args : Args
  alive : Nat → Bool
  myPid : Nat
  lock0 : Option LockContent
  config : Config
  worlds : String → RepoWorld
  currentHour : Nat
  bodyRaises : Bool

/-- How the `try` body of `main` terminates: a `sys.exit(code)` (with a
flag marking the schedule-gate skip), normal completion carrying the
attempted repositories and the success count, or a propagating
exception. -/
inductive BodyOutcome
  | exited (code : Nat) (skippedBySchedule : Bool)
  | finished (attempts : List (String × SyncResult)) (successCount : Nat)
  | raised

/-- The repository list after the optional `--repo` filter. -/
def filteredRepos (cfg : Config) (filter : Option String) : List RepoConfig :=
  match filter with
  | none => cfg.repos
  | some p => cfg.repos.filter (fun r => r.path == p)

/-- The per-repository loop of `main`: disabled repositories are skipped
without a sync attempt; every other repository is passed to `sync_repo`
and counted on success. -/
def runBatch (worlds : String → RepoWorld) (dryRun : Bool) :
    List RepoConfig → List (String × SyncResult) × Nat
  | [] => ([], 0)
  | r :: rs =>
    let rest := runBatch worlds dryRun rs
    if r.enabled.getD true then
      let res := syncRepo r (worlds r.path) dryRun
      ((r.path, res) :: rest.1, (if res.ok then 1 else 0) + rest.2)
    else rest

/-- The `try` body of `main`: empty configuration exits 0; the `--repo`
filter exits 1 when it matches nothing; the schedule gate applies only
to non-forced headless runs and exits 0; otherwise every repository is
processed and the summary logged. -/
def mainBody (env : Env) : BodyOutcome :=
  if env.bodyRaises then .raised
  else if env.config.repos.isEmpty then .exited 0 false
  else
    let repos := filteredRepos env.config env.args.repoFilter
    if repos.isEmpty then .exited 1 false
    else if env.args.force = false ∧ env.args.mode = Mode.headless
        ∧ shouldSkipSync env.config env.currentHour = true then
      .exited 0 true
    else
      let batch := runBatch env.worlds env.args.dryRun repos
      .finished batch.1 batch.2

/-- Observable result of one engine run. `summary` is the
`success_count/len(repos)` pair logged at the end, when reached. -/
structure MainResult where
  exitCode : Nat
  raised : Bool
  skippedBySchedule : Bool
  attempts : List (String × SyncResult)
  summary : Option (Nat × Nat)
  lockAfter : Option LockContent

/-- Embedding of the tail of `main`: the run result for a given outcome
of the `try` body, with `release_lock()` from the `finally` block
applied on every one of them, `sys.exit` and exceptions included.  An
uncaught exception terminates the process with a nonzero status after
the cleanup. -/
def finishRun (env : Env) (acq : AcquireResult) : BodyOutcome → MainResult
  | .exited c sk =>
    { exitCode := c, raised := false, skippedBySchedule := sk,
      attempts := [], summary := none, lockAfter := releaseLock acq.record }
  | .finished atts succ =>
    { exitCode := 0, raised := false, skippedBySchedule := false,
      attempts := atts,
      summary := some (succ, (filteredRepos env.config env.args.repoFilter).length),
      lockAfter := releaseLock acq.record }
  | .raised =>
    { exitCode := 1, raised := true, skippedBySchedule := false,
      attempts := [], summary := none, lockAfter := releaseLock acq.record }

/-- Embedding of `main`, continued: acquire the lock (exit 1 on
contention, nothing synced), otherwise run the body and finish. -/
def mainRun (env : Env) : MainResult :=
  let acq := acquireLock env.alive env.myPid env.lock0
  if acq.ok = false then
    { exitCode := 1, raised := false, skippedBySchedule := false,
      attempts := [], summary := none, lockAfter := acq.record }
  else finishRun env acq (mainBody env)

/-! ### Example fixtures used by concrete-input theorems -/

/-- A repository environment in which every probe and git call succeeds
and the repository is already in sync. -/
def worldAllOk : RepoWorld :=
  { pathExists := true, gitDirExists := true, fetchRes := .ok, behind := 0,
    pullRes := .ok, pullTimeoutLeavesMerge := false, hasChanges := false,
    addRes := .ok, stagedCount := 0, commitRes := .ok, ahead := 0,
    pushRes := .ok }

/-- Environment whose repository path does not exist. -/
def worldMissingPath : RepoWorld := { worldAllOk with pathExists := false }

/-- Environment in which the repository is behind and `git pull` hits
the 60-unit timeout, leaving a merge in progress. -/
def worldPullTimeout : RepoWorld :=
  { worldAllOk with
    behind := 1, pullRes := .timeout, pullTimeoutLeavesMerge := true }

/-- Environment in which the repository is behind and `git pull` exits
nonzero. -/
def worldPullFail : RepoWorld := { worldAllOk with behind := 1, pullRes := .fail }

/-- A repository descriptor relying on every default. -/
def exampleRepoA : RepoConfig :=
  { path := "/repoA", strategy := none, branch := none, remote := none,
    enabled := none }

/-- A second repository descriptor. -/
def exampleRepoB : RepoConfig :=
  { path := "/repoB", strategy := none, branch := none, remote := none,
    enabled := none }

/-- A repository descriptor with `enabled` set to `false`. -/
def exampleRepoDisabled : RepoConfig :=
  { path := "/repoC", strategy := none, branch := none, remote := none,
    enabled := some false }

/-- A `global` section with no keys set, so every default applies. -/
def exampleSchedule : GlobalConfig :=
  { quietStart := none, quietEnd := none, skipHours := [] }

/-- Arguments of an unattended, non-forced, non-dry run with no filter. -/
def exampleArgs : Args :=
  { mode := .headless, dryRun := false, force := false, repoFilter := none }

/-- Engine run over two enabled repositories where the first fails at
the pull stage and the second succeeds, at noon with no lock held. -/
def envTwoRepos : Env :=
  { args := exampleArgs, alive := fun _ => false, myPid := 100, lock0 := none,
    config := { repos := [exampleRepoA, exampleRepoB], global := exampleSchedule },
    worlds := fun p => if p == "/repoA" then worldPullFail else worldAllOk,
    currentHour := 12, bodyRaises := false }

/-- Engine run over one enabled repository that succeeds and one
disabled repository. -/
def envEnabledDisabled : Env :=
  { args := exampleArgs, alive := fun _ => false, myPid := 100, lock0 := none,
    config := { repos := [exampleRepoA, exampleRepoDisabled],
                global := exampleSchedule },
    worlds := fun _ => worldAllOk, currentHour := 12, bodyRaises := false }

/-- Engine run in which the body raises an unexpected exception. -/
def envRaises : Env := { envTwoRepos with bodyRaises := true }

/-- Engine run at hour 23, inside the default quiet hours. -/
def envQuiet : Env := { envTwoRepos with currentHour := 23 }

/-- Engine run with an empty repository list. -/
def envNoRepos : Env :=
  { envTwoRepos with config := { repos := [], global := exampleSchedule } }

/-- Forced engine run at hour 23. -/
def envForced : Env :=
  { envQuiet with args := { exampleArgs with force := true } }

/-- Engine run while the lock file names a live process. -/
def envLockHeld : Env :=
  { envTwoRepos with alive := fun _ => true, lock0 := some (.pid 5) }

/-! ### Claims -/

/-- C10: when the lock file exists but its content does not parse as an
integer process id, `acquire_lock` treats it like a stale record: the
file is deleted, the current process id is written, and acquisition
succeeds. -/
theorem claim_C10 (alive : Nat → Bool) (myPid : Nat) :
    acquireLock alive myPid (some .garbage) =
      { ok := true, record := some (.pid myPid),
        actions := [.unlink, .write myPid] } := rfl

/-- C7: with a successful fetch and a behind count of 0, `git_pull`
returns success having issued no merge (no `git pull`, no abort); with
an ahead count of 0, `git_push` returns success having issued no push. -/
theorem claim_C7 (w : RepoWorld) :
    (w.fetchRes = .ok → w.behind = 0 →
      (gitPull w).ok = true ∧ (gitPull w).ops = [.fetch, .revListBehind] ∧
        GitOp.pull ∉ (gitPull w).ops ∧ GitOp.mergeAbort ∉ (gitPull w).ops) ∧
    (w.ahead = 0 →
      (gitPush w).ok = true ∧ (gitPush w).ops = [.revListAhead] ∧
        GitOp.push ∉ (gitPush w).ops) := by
  constructor
  · intro hf hb
    simp [gitPull, hf, hb]
  · intro ha
    simp [gitPush, ha]

/-- Closed instance of `claim_C7` at a concrete environment. -/
theorem claim_C7_witness :
    (gitPull worldAllOk).ok = true ∧ GitOp.pull ∉ (gitPull worldAllOk).ops ∧
      (gitPush worldAllOk).ok = true ∧ GitOp.push ∉ (gitPush worldAllOk).ops :=
  ⟨((claim_C7 worldAllOk).1 rfl rfl).1, ((claim_C7 worldAllOk).1 rfl rfl).2.2.1,
    ((claim_C7 worldAllOk).2 rfl).1, ((claim_C7 worldAllOk).2 rfl).2.2⟩

/-- Characterization of the schedule-gate skip across the whole run:
it happens exactly when the lock is acquired, no exception fires, the
repository list and its filtered form are nonempty, the run is a
non-forced headless one, and `shouldSkipSync` holds at the current
hour. -/
theorem mainRun_skipped_iff (env : Env) :
    (mainRun env).skippedBySchedule = true ↔
      ((acquireLock env.alive env.myPid env.lock0).ok = true ∧
        env.bodyRaises = false ∧ env.config.repos.isEmpty = false ∧
        (filteredRepos env.config env.args.repoFilter).isEmpty = false ∧
        env.args.force = false ∧ env.args.mode = Mode.headless ∧
        shouldSkipSync env.config env.currentHour = true) := by
  cases hacq : (acquireLock env.alive env.myPid env.lock0).ok
  · simp [mainRun, hacq]
  · cases hr : env.bodyRaises
    · cases he : env.config.repos.isEmpty
      · cases hft : (filteredRepos env.config env.args.repoFilter).isEmpty
        · by_cases hg : env.args.force = false ∧ env.args.mode = Mode.headless
              ∧ shouldSkipSync env.config env.currentHour = true
          · simp [mainRun, mainBody, finishRun, hacq, hr, he, hft, hg]
          · simp only [mainRun, mainBody, hacq, hr, he, hft, hg]
            simp [finishRun]
        · simp [mainRun, mainBody, finishRun, hacq, hr, he, hft]
      · simp [mainRun, mainBody, finishRun, hacq, hr, he]
    · simp [mainRun, mainBody, finishRun, hacq, hr]

/-- C3: a headless, non-forced run that reaches the schedule gate is
skipped exactly when the hour satisfies `h ≥ start ∨ h < end` (defaults
22 and 9) or lies in `skipHours`; with start 22 and end 9 the skipped
hours are exactly 22, 23 and 0 through 8; and the gate never fires on a
forced run or in head mode. -/
theorem claim_C3 :
    (∀ (gc : GlobalConfig) (repos : List RepoConfig) (h : Nat),
      shouldSkipSync ⟨repos, gc⟩ h = true ↔
        (h ≥ gc.quietStart.getD 22 ∨ h < gc.quietEnd.getD 9 ∨ h ∈ gc.skipHours)) ∧
    ((List.range 24).filter
        (fun h => shouldSkipSync ⟨[], ⟨some 22, some 9, []⟩⟩ h) =
      [0, 1, 2, 3, 4, 5, 6, 7, 8, 22, 23]) ∧
    (∀ env : Env, env.args.force = true ∨ env.args.mode = Mode.head →
      (mainRun env).skippedBySchedule = false) ∧
    (∀ env : Env, env.args.force = false → env.args.mode = Mode.headless →
      env.bodyRaises = false →
      (acquireLock env.alive env.myPid env.lock0).ok = true →
      env.config.repos.isEmpty = false →
      (filteredRepos env.config env.args.repoFilter).isEmpty = false →
      ((mainRun env).skippedBySchedule = true ↔
        shouldSkipSync env.config env.currentHour = true)) := by
  refine ⟨?_, by decide, ?_, ?_⟩
  · intro gc repos h
    constructor
    · intro hs
      by_cases h1 : h ≥ gc.quietStart.getD 22
      · exact Or.inl h1
      · by_cases h2 : h < gc.quietEnd.getD 9
        · exact Or.inr (Or.inl h2)
        · refine Or.inr (Or.inr ?_)
          simp [shouldSkipSync, h1, h2] at hs
          exact hs
    · intro hs
      rcases hs with h1 | h2 | h3
      · simp [shouldSkipSync, h1]
      · simp [shouldSkipSync, h2]
      · simp only [shouldSkipSync]
        have hc : gc.skipHours.contains h = true := List.elem_iff.mpr h3
        rw [hc]
        simp
  · intro env henv
    cases hs : (mainRun env).skippedBySchedule
    · rfl
    · exfalso
      rcases (mainRun_skipped_iff env).mp hs with ⟨-, -, -, -, hf0, hm0, -⟩
      rcases henv with hf | hm
      · rw [hf] at hf0
        exact Bool.noConfusion hf0
      · rw [hm] at hm0
        exact Mode.noConfusion hm0
  · intro env hf hm hr hacq hrepos hfilt
    rw [mainRun_skipped_iff]
    simp [hacq, hr, hrepos, hfilt, hf, hm]

/-- Closed instance of `claim_C3` at concrete runs: a forced run at a
quiet hour is not gate-skipped, and an unattended run at hour 23 is
skipped since `shouldSkipSync` holds there. -/
theorem claim_C3_witness :
    (mainRun envForced).skippedBySchedule = false ∧
      (mainRun envQuiet).skippedBySchedule = true :=
  ⟨claim_C3.2.2.1 envForced (Or.inl rfl),
    (claim_C3.2.2.2 envQuiet rfl rfl rfl rfl rfl rfl).mpr rfl⟩

/-- C4 as stated is false: on a lock record whose content is not a
parseable process id, `acquire_lock` returns true although the record is
neither absent nor names a dead process. -/
theorem claim_C4_counterexample :
    ¬ ((acquireLock (fun _ => true) 100 (some .garbage)).ok = true ↔
      ((some LockContent.garbage : Option LockContent) = none ∨
        ∃ p, (some LockContent.garbage : Option LockContent) = some (.pid p) ∧
          (fun _ => true : Nat → Bool) p = false)) := by
  simp [acquireLock]

/-- C4 (amended): lock acquisition returns true exactly when the record
is absent, holds unparseable content, or names a dead process; a stale
or unparseable record is deleted and replaced by a record with the
current process id; when the record names a live process, acquisition
returns false leaving the record untouched, and the engine exits with
status 1 having attempted no repository. -/
theorem claim_C4_amended :
    (∀ (alive : Nat → Bool) (myPid : Nat) (s : Option LockContent),
      ((acquireLock alive myPid s).ok = true ↔
        (s = none ∨ s = some .garbage ∨
          ∃ p, s = some (.pid p) ∧ alive p = false)) ∧
      ((acquireLock alive myPid s).ok = true →
        (acquireLock alive myPid s).record = some (.pid myPid)) ∧
      ((acquireLock alive myPid s).ok = false →
        (acquireLock alive myPid s).record = s ∧
          (acquireLock alive myPid s).actions = []) ∧
      (∀ p, s = some (.pid p) → alive p = false →
        (acquireLock alive myPid s).actions = [.unlink, .write myPid])) ∧
    (∀ env : Env, (acquireLock env.alive env.myPid env.lock0).ok = false →
      (mainRun env).exitCode = 1 ∧ (mainRun env).attempts = [] ∧
        (mainRun env).summary = none) := by
  constructor
  · intro alive myPid s
    match s with
    | none => simp [acquireLock]
    | some .garbage => simp [acquireLock]
    | some (.pid p) =>
      cases hp : alive p
      · simp [acquireLock, hp]
      · simp [acquireLock, hp]
  · intro env hacq
    simp [mainRun, hacq]

/-- Closed instance of `claim_C4_amended`: a record naming dead process
5 is replaced by the current pid 100, and a run against a live lock
holder exits 1 with no attempts. -/
theorem claim_C4_amended_witness :
    (acquireLock (fun _ => false) 100 (some (.pid 5))).ok = true ∧
      (acquireLock (fun _ => false) 100 (some (.pid 5))).record =
        some (.pid 100) ∧
      (acquireLock (fun _ => false) 100 (some (.pid 5))).actions =
        [.unlink, .write 100] ∧
      (mainRun envLockHeld).exitCode = 1 ∧ (mainRun envLockHeld).attempts = [] :=
  ⟨((claim_C4_amended.1 (fun _ => false) 100 (some (.pid 5))).1).mpr
      (Or.inr (Or.inr ⟨5, rfl, rfl⟩)),
    ((claim_C4_amended.1 (fun _ => false) 100 (some (.pid 5))).2.1)
      (((claim_C4_amended.1 (fun _ => false) 100 (some (.pid 5))).1).mpr
        (Or.inr (Or.inr ⟨5, rfl, rfl⟩))),
    ((claim_C4_amended.1 (fun _ => false) 100 (some (.pid 5))).2.2.2) 5 rfl rfl,
    (claim_C4_amended.2 envLockHeld rfl).1,
    (claim_C4_amended.2 envLockHeld rfl).2.1⟩

/-- C8: once the lock is acquired, its record is deleted on every
control-flow exit of the run (the `finally` cleanup covers normal
completion, schedule skip, early `sys.exit` and exceptions alike), and
release is idempotent with a no-op on an absent record. -/
theorem claim_C8 :
    (∀ env : Env, (acquireLock env.alive env.myPid env.lock0).ok = true →
      (mainRun env).lockAfter = none) ∧
    (∀ s, releaseLock (releaseLock s) = releaseLock s) ∧
    releaseLock none = none := by
  have hrel : ∀ s, releaseLock s = none := by
    intro s
    cases s <;> rfl
  refine ⟨?_, ?_, rfl⟩
  · intro env hacq
    unfold mainRun
    rw [if_neg (by simp [hacq])]
    cases mainBody env <;> simp [finishRun, hrel]
  · intro s
    rw [hrel s]
    exact hrel none

/-- Closed instances of `claim_C8` on four exit paths: exception raised,
schedule skip, empty-configuration early exit, and normal completion. -/
theorem claim_C8_witness :
    ((mainRun envRaises).raised = true ∧ (mainRun envRaises).lockAfter = none) ∧
      ((mainRun envQuiet).skippedBySchedule = true ∧
        (mainRun envQuiet).lockAfter = none) ∧
      ((mainRun envNoRepos).exitCode = 0 ∧
        (mainRun envNoRepos).lockAfter = none) ∧
      ((mainRun envTwoRepos).summary = some (1, 2) ∧
        (mainRun envTwoRepos).lockAfter = none) :=
  ⟨⟨rfl, claim_C8.1 envRaises rfl⟩, ⟨rfl, claim_C8.1 envQuiet rfl⟩,
    ⟨rfl, claim_C8.1 envNoRepos rfl⟩, ⟨rfl, claim_C8.1 envTwoRepos rfl⟩⟩

/-- C1 as stated is false: a sync attempt that fails at the Validating
stage (missing path) reaches the Failed terminal state yet records no
SyncOutcome at all. -/
theorem claim_C1_counterexample :
    (syncRepo exampleRepoA worldMissingPath false).ok = false ∧
      (syncRepo exampleRepoA worldMissingPath false).statusWrites = [] :=
  ⟨rfl, rfl⟩

/-- C1 (amended): a SyncOutcome is recorded via `save_status` exactly
for attempts that pass validation in non-dry-run mode — exactly one
record, success or the failing stage, before returning; validation
failures and dry-run completions return without recording anything. -/
theorem claim_C1_amended (cfg : RepoConfig) (w : RepoWorld) (dryRun : Bool) :
    (w.pathExists = true → w.gitDirExists = true → dryRun = false →
      ∃ st, (syncRepo cfg w dryRun).statusWrites = [st] ∧ st.repo = cfg.path ∧
        ((syncRepo cfg w dryRun).ok = true → st.status = "success") ∧
        ((syncRepo cfg w dryRun).ok = false → st.status = "failed")) ∧
    ((w.pathExists = false ∨ w.gitDirExists = false ∨ dryRun = true) →
      (syncRepo cfg w dryRun).statusWrites = []) := by
  constructor
  · intro hp hg hd
    unfold syncRepo
    rw [hp, hg, hd]
    simp only [Bool.true_eq_false, if_false]
    by_cases h1 : (gitPull w).ok = false
    · rw [if_pos h1]
      exact ⟨_, rfl, rfl, by simp, fun _ => rfl⟩
    · rw [if_neg h1]
      by_cases h2 : (gitCommit w).ok = false
      · rw [if_pos h2]
        exact ⟨_, rfl, rfl, by simp, fun _ => rfl⟩
      · rw [if_neg h2]
        by_cases h3 : (gitPush w).ok = false
        · rw [if_pos h3]
          exact ⟨_, rfl, rfl, by simp, fun _ => rfl⟩
        · rw [if_neg h3]
          exact ⟨_, rfl, rfl, fun _ => rfl, by simp⟩
  · intro hv
    unfold syncRepo
    rcases hv with hp | hg | hd
    · rw [hp]
      simp
    · rw [hg]
      cases hp : w.pathExists <;> simp
    · rw [hd]
      cases hp : w.pathExists
      · simp
      · cases hg : w.gitDirExists <;> simp

/-- Closed instance of `claim_C1_amended`: a pull failure past
validation records exactly one failed outcome, and a dry-run completion
records none. -/
theorem claim_C1_amended_witness :
    (∃ st, (syncRepo exampleRepoA worldPullFail false).statusWrites = [st] ∧
      st.repo = "/repoA" ∧
      ((syncRepo exampleRepoA worldPullFail false).ok = true →
        st.status = "success") ∧
      ((syncRepo exampleRepoA worldPullFail false).ok = false →
        st.status = "failed")) ∧
    (syncRepo exampleRepoA worldAllOk true).statusWrites = [] :=
  ⟨(claim_C1_amended exampleRepoA worldPullFail false).1 rfl rfl rfl,
    (claim_C1_amended exampleRepoA worldAllOk true).2 (Or.inr (Or.inr rfl))⟩

/-- C2 as stated is false: a pull that exceeds the 60-unit timeout is a
failure, but no `git merge --abort` is issued on that path, and the
working copy can be left with a merge in progress. -/
theorem claim_C2_counterexample :
    (gitPull worldPullTimeout).ok = false ∧
      GitOp.mergeAbort ∉ (gitPull worldPullTimeout).ops ∧
      (gitPull worldPullTimeout).mergeInProgress = true := by
  refine ⟨rfl, ?_, rfl⟩
  decide

/-- C2 (amended): the merge abort runs exactly when the pull command
itself completes with a nonzero exit status, and then the working copy
is left with no merge in progress before failure is reported; a pull
timeout is reported as a failure without any abort, so a merge begun by
the interrupted pull may remain in progress. -/
theorem claim_C2_amended (w : RepoWorld) :
    (w.fetchRes = .ok → w.behind ≠ 0 → w.pullRes = .fail →
      (gitPull w).ok = false ∧ GitOp.mergeAbort ∈ (gitPull w).ops ∧
        (gitPull w).mergeInProgress = false) ∧
    (w.fetchRes = .ok → w.behind ≠ 0 → w.pullRes = .timeout →
      (gitPull w).ok = false ∧ GitOp.mergeAbort ∉ (gitPull w).ops ∧
        (gitPull w).mergeInProgress = w.pullTimeoutLeavesMerge) ∧
    (w.pullRes ≠ .fail → GitOp.mergeAbort ∉ (gitPull w).ops) := by
  refine ⟨?_, ?_, ?_⟩
  · intro hf hb hpull
    simp [gitPull, hf, hb, hpull]
  · intro hf hb hpull
    simp [gitPull, hf, hb, hpull]
  · intro hpull
    unfold gitPull
    cases hf : w.fetchRes
    · by_cases hb : w.behind = 0
      · simp [hb]
      · cases hp : w.pullRes
        · simp [hb]
        · exact absurd hp hpull
        · simp [hb]
    · simp
    · simp

/-- Closed instance of `claim_C2_amended`: a nonzero pull exit aborts
the merge and leaves the working copy clean; the timed-out pull of the
counterexample environment issues no abort. -/
theorem claim_C2_amended_witness :
    ((gitPull worldPullFail).ok = false ∧
      GitOp.mergeAbort ∈ (gitPull worldPullFail).ops ∧
      (gitPull worldPullFail).mergeInProgress = false) ∧
    GitOp.mergeAbort ∉ (gitPull worldPullTimeout).ops :=
  ⟨(claim_C2_amended worldPullFail).1 rfl (by decide) rfl,
    ((claim_C2_amended worldPullTimeout).2.1 rfl (by decide) rfl).2.1⟩

/-- C6 as stated is false: a dry-run over a valid repository returns
success without persisting any SyncOutcome record. -/
theorem claim_C6_counterexample :
    (syncRepo exampleRepoB worldAllOk true).ok = true ∧
      (syncRepo exampleRepoB worldAllOk true).statusWrites = [] :=
  ⟨rfl, rfl⟩

/-- C6 (amended): for every valid repository descriptor, a dry-run
invocation logs the dry-run notice, returns success immediately after
the Validating stage having invoked no VCS operation at all (mutating or
not), and is counted as a success in the aggregate summary — but it
persists no SyncOutcome record. -/
theorem claim_C6_amended (cfg : RepoConfig) (w : RepoWorld)
    (hp : w.pathExists = true) (hg : w.gitDirExists = true) :
    (syncRepo cfg w true).ok = true ∧ (syncRepo cfg w true).ops = [] ∧
      (∀ op ∈ (syncRepo cfg w true).ops, op.mutating = false) ∧
      "DRY RUN - no changes will be made" ∈ (syncRepo cfg w true).logs ∧
      (syncRepo cfg w true).statusWrites = [] := by
  unfold syncRepo
  rw [hp, hg]
  simp

/-- Closed instance of `claim_C6_amended` at a concrete valid
repository. -/
theorem claim_C6_amended_witness :
    (syncRepo exampleRepoA worldAllOk true).ok = true ∧
      (syncRepo exampleRepoA worldAllOk true).ops = [] ∧
      (∀ op ∈ (syncRepo exampleRepoA worldAllOk true).ops,
        op.mutating = false) ∧
      "DRY RUN - no changes will be made" ∈
        (syncRepo exampleRepoA worldAllOk true).logs ∧
      (syncRepo exampleRepoA worldAllOk true).statusWrites = [] :=
  claim_C6_amended exampleRepoA worldAllOk rfl rfl

/-- Every operation `git_pull` issues belongs to the pull stage. -/
theorem gitPull_ops_stage (w : RepoWorld) :
    ∀ op ∈ (gitPull w).ops, op.stage = 0 := by
  unfold gitPull
  split
  · simp [GitOp.stage]
  · simp [GitOp.stage]
  · split
    · simp [GitOp.stage]
    · split
      · simp [GitOp.stage]
      · simp [GitOp.stage]
      · simp [GitOp.stage]

/-- Every operation `git_commit` issues belongs to the commit stage. -/
theorem gitCommit_ops_stage (w : RepoWorld) :
    ∀ op ∈ (gitCommit w).ops, op.stage = 1 := by
  unfold gitCommit
  split
  · simp [GitOp.stage]
  · split
    · simp [GitOp.stage]
    · split
      · simp [GitOp.stage]
      · split
        · simp [GitOp.stage]
        · simp [GitOp.stage]

/-- Every operation `git_push` issues belongs to the push stage. -/
theorem gitPush_ops_stage (w : RepoWorld) :
    ∀ op ∈ (gitPush w).ops, op.stage = 2 := by
  unfold gitPush
  split
  · simp [GitOp.stage]
  · split
    · simp [GitOp.stage]
    · simp [GitOp.stage]

/-- A list of operations of one common stage has nondecreasing stages. -/
theorem pairwise_stage_const {l : List GitOp} {k : Nat}
    (h : ∀ op ∈ l, op.stage = k) :
    (l.map GitOp.stage).Pairwise (· ≤ ·) := by
  rw [List.pairwise_map]
  refine List.pairwise_of_forall_mem_list ?_
  intro a ha b hb
  rw [h a ha, h b hb]

/-- Concatenating stage-sorted operation lists whose stages are ordered
across the seam stays stage-sorted. -/
theorem pairwise_stage_append {l₁ l₂ : List GitOp}
    (h₁ : (l₁.map GitOp.stage).Pairwise (· ≤ ·))
    (h₂ : (l₂.map GitOp.stage).Pairwise (· ≤ ·))
    (hle : ∀ a ∈ l₁, ∀ b ∈ l₂, a.stage ≤ b.stage) :
    ((l₁ ++ l₂).map GitOp.stage).Pairwise (· ≤ ·) := by
  rw [List.map_append, List.pairwise_append]
  refine ⟨h₁, h₂, ?_⟩
  intro a ha b hb
  rcases List.mem_map.mp ha with ⟨x, hx, rfl⟩
  rcases List.mem_map.mp hb with ⟨y, hy, rfl⟩
  exact hle x hx y hy

/-- The operations of one `sync_repo` run have nondecreasing stages:
pull operations come before commit operations before push operations. -/
theorem syncRepo_ops_sorted (cfg : RepoConfig) (w : RepoWorld) (dryRun : Bool) :
    (((syncRepo cfg w dryRun).ops.map GitOp.stage)).Pairwise (· ≤ ·) := by
  have hp := gitPull_ops_stage w
  have hc := gitCommit_ops_stage w
  have hq := gitPush_ops_stage w
  have hpc : ((gitPull w).ops ++ (gitCommit w).ops).map GitOp.stage
      |>.Pairwise (· ≤ ·) :=
    pairwise_stage_append (pairwise_stage_const hp) (pairwise_stage_const hc)
      (fun a ha b hb => by rw [hp a ha, hc b hb]; omega)
  have hfull : (((gitPull w).ops ++ (gitCommit w).ops) ++ (gitPush w).ops).map
      GitOp.stage |>.Pairwise (· ≤ ·) := by
    refine pairwise_stage_append hpc (pairwise_stage_const hq) ?_
    intro a ha b hb
    rw [hq b hb]
    rcases List.mem_append.mp ha with h | h
    · rw [hp a h]
      omega
    · rw [hc a h]
      omega
  unfold syncRepo
  by_cases h1 : w.pathExists = false
  · simp [h1]
  · by_cases h2 : w.gitDirExists = false
    · simp [h1, h2]
    · by_cases h3 : dryRun = true
      · simp [h1, h2, h3]
      · simp only [h1, h2, h3, if_false]
        by_cases h4 : (gitPull w).ok = false
        · rw [if_pos h4]
          exact pairwise_stage_const hp
        · rw [if_neg h4]
          by_cases h5 : (gitCommit w).ok = false
          · rw [if_pos h5]
            exact hpc
          · rw [if_neg h5]
            by_cases h6 : (gitPush w).ok = false
            · rw [if_pos h6]
              exact hfull
            · rw [if_neg h6]
              exact hfull

/-- Every enabled repository of the batch is attempted and its own
result recorded, independently of the other repositories. -/
theorem runBatch_mem (worlds : String → RepoWorld) (dryRun : Bool) :
    ∀ repos : List RepoConfig, ∀ r ∈ repos, r.enabled.getD true = true →
      (r.path, syncRepo r (worlds r.path) dryRun) ∈
        (runBatch worlds dryRun repos).1 := by
  intro repos
  induction repos with
  | nil =>
    intro r hr
    cases hr
  | cons a t ih =>
    intro r hr he
    rcases List.mem_cons.mp hr with rfl | hrt
    · simp only [runBatch, he, if_true]
      exact List.mem_cons_self _ _
    · by_cases ha : a.enabled.getD true = true
      · simp only [runBatch, ha, if_true]
        exact List.mem_cons_of_mem _ (ih r hrt he)
      · simp only [runBatch]
        rw [if_neg ha]
        exact ih r hrt he

/-- The success count of the batch equals the number of attempted
repositories whose sync succeeded. -/
theorem runBatch_count (worlds : String → RepoWorld) (dryRun : Bool) :
    ∀ repos : List RepoConfig,
      (runBatch worlds dryRun repos).2 =
        ((runBatch worlds dryRun repos).1.filter (fun a => a.2.ok)).length := by
  intro repos
  induction repos with
  | nil => rfl
  | cons a t ih =>
    by_cases ha : a.enabled.getD true = true
    · simp only [runBatch, ha, if_true]
      by_cases ho : (syncRepo a (worlds a.path) dryRun).ok = true
      · simp [List.filter_cons, ho, ih, Nat.add_comm]
      · simp only [Bool.not_eq_true] at ho
        simp [List.filter_cons, ho, ih]
    · simp only [runBatch]
      rw [if_neg ha]
      exact ih

/-- C5: stages run in the order pull, commit, push; a stage failure
halts the later stages of that repository only, while every subsequent
repository is still attempted with its own recorded outcome; the
aggregate summary counts exactly the successful repositories, e.g. 1 of
2 when the first of two fails at the pull stage. -/
theorem claim_C5 :
    (∀ (cfg : RepoConfig) (w : RepoWorld) (dryRun : Bool),
      (((syncRepo cfg w dryRun).ops.map GitOp.stage)).Pairwise (· ≤ ·)) ∧
    (∀ (cfg : RepoConfig) (w : RepoWorld),
      w.pathExists = true → w.gitDirExists = true →
      (((gitPull w).ok = false →
        (syncRepo cfg w false).ok = false ∧
          (syncRepo cfg w false).ops = (gitPull w).ops) ∧
      ((gitPull w).ok = true → (gitCommit w).ok = false →
        (syncRepo cfg w false).ok = false ∧
          (syncRepo cfg w false).ops = (gitPull w).ops ++ (gitCommit w).ops) ∧
      ((gitPull w).ok = true → (gitCommit w).ok = true →
        (syncRepo cfg w false).ops =
          (gitPull w).ops ++ (gitCommit w).ops ++ (gitPush w).ops ∧
          (syncRepo cfg w false).ok = (gitPush w).ok))) ∧
    (∀ (worlds : String → RepoWorld) (dryRun : Bool)
      (repos : List RepoConfig),
      (∀ r ∈ repos, r.enabled.getD true = true →
        (r.path, syncRepo r (worlds r.path) dryRun) ∈
          (runBatch worlds dryRun repos).1) ∧
      (runBatch worlds dryRun repos).2 =
        ((runBatch worlds dryRun repos).1.filter (fun a => a.2.ok)).length) ∧
    ((mainRun envTwoRepos).summary = some (1, 2) ∧
      (mainRun envTwoRepos).attempts.map (fun a => (a.1, a.2.ok)) =
        [("/repoA", false), ("/repoB", true)] ∧
      (mainRun envTwoRepos).attempts.map (fun a => (a.1, a.2.statusWrites.map
        SyncStatus.status)) = [("/repoA", ["failed"]), ("/repoB", ["success"])]) := by
  refine ⟨syncRepo_ops_sorted, ?_, ?_, rfl, rfl, rfl⟩
  · intro cfg w hp hg
    refine ⟨?_, ?_, ?_⟩
    · intro h1
      unfold syncRepo
      rw [hp, hg]
      simp [h1]
    · intro h1 h2
      unfold syncRepo
      rw [hp, hg]
      simp [h1, h2]
    · intro h1 h2
      unfold syncRepo
      rw [hp, hg]
      by_cases h3 : (gitPush w).ok = false
      · simp [h1, h2, h3]
      · simp only [Bool.not_eq_false] at h3
        simp [h1, h2, h3]
  · intro worlds dryRun repos
    exact ⟨runBatch_mem worlds dryRun repos, runBatch_count worlds dryRun repos⟩

/-- Closed instance of `claim_C5`: a repository failing at the pull
stage issues only pull-stage operations, and the batch of the
two-repository example still attempts the second repository. -/
theorem claim_C5_witness :
    ((syncRepo exampleRepoB worldPullFail false).ok = false ∧
      (syncRepo exampleRepoB worldPullFail false).ops =
        (gitPull worldPullFail).ops) ∧
    ("/repoB", syncRepo exampleRepoB (envTwoRepos.worlds "/repoB") false) ∈
      (runBatch envTwoRepos.worlds false [exampleRepoA, exampleRepoB]).1 :=
  ⟨(claim_C5.2.1 exampleRepoB worldPullFail rfl rfl).1 rfl,
    (claim_C5.2.2.1 envTwoRepos.worlds false [exampleRepoA, exampleRepoB]).1
      exampleRepoB (by simp) rfl⟩

/-- C9: the denominator of the aggregate summary is the length of the
repository list remaining after the optional single-repository filter,
disabled repositories included. -/
theorem claim_C9 (env : Env) (hr : env.bodyRaises = false)
    (hacq : (acquireLock env.alive env.myPid env.lock0).ok = true)
    (hne : env.config.repos.isEmpty = false)
    (hfilt : (filteredRepos env.config env.args.repoFilter).isEmpty = false)
    (hgate : ¬ (env.args.force = false ∧ env.args.mode = Mode.headless ∧
      shouldSkipSync env.config env.currentHour = true)) :
    (mainRun env).summary =
      some ((runBatch env.worlds env.args.dryRun
          (filteredRepos env.config env.args.repoFilter)).2,
        (filteredRepos env.config env.args.repoFilter).length) := by
  unfold mainRun
  rw [if_neg (by simp [hacq])]
  simp only [mainBody, hr, hne, hfilt, hgate]
  simp [finishRun]

/-- Closed instance of `claim_C9`: over one enabled repository that
succeeds and one disabled repository, the summary reports 1 of 2. -/
theorem claim_C9_witness :
    (mainRun envEnabledDisabled).summary = some (1, 2) := by
  rw [claim_C9 envEnabledDisabled rfl rfl rfl rfl (by decide)]
  rfl

end GitAutoSync
